import Mathlib

/-!
A shallow embedding of `shofmn/bulk-domain-checker` (`src/index.js`) and proofs
about its candidate generator, whois-response classifiers, lookup executor and
run loop.

Modelling conventions:
* JavaScript strings are modelled as `List Char`; string literals of the source
  appear as `"...".toList`.
* The external `whois` child process is modelled by an explicit `ProcEvent`
  (either a spawn error or a close with exit code, stdout and stderr), one per
  candidate; `whoisLookup` is then a pure function of that event.
* The regular expressions of the source are embedded as executable scanners
  with JavaScript leftmost-match semantics (`statusValue` for
  `/Status:\s*(\w+)/i`, `hasCaseless` for `/no match/i.test` and substring
  search).
* Thrown configuration errors are modelled with `Except (List Char)`.
-/

/-- MIN_LENGTH constant (src/index.js:8). -/
def MIN_LENGTH : Int := 2

/-- MAX_LENGTH constant (src/index.js:9). -/
def MAX_LENGTH : Int := 63

/-- ALPHABET constant (src/index.js:10): the 26 lowercase letters. -/
def ALPHABET : List Char := ("abcdefghijklmnopqrstuvwxyz".toList)

/-- DEFAULT_INTERVAL_MS constant (src/index.js:11). -/
def DEFAULT_INTERVAL_MS : Int := 500

/-- SUPPORTED_TLDS constant (src/index.js:12), the JS `Set` modelled as a list. -/
def SUPPORTED_TLDS : List (List Char) :=
  [("de".toList), ("net".toList), ("eu".toList), ("com".toList)]

/-- The inner generator `build` of `domainGenerator` (src/index.js:78-87).
The source recurses on a growing string `current` and stops when
`current.length === fillCount`; here the first argument is the number of
letters still to append, `fillCount - current.length`, which makes the
recursion structural.  (For a negative JS `fillCount` the source would recurse
forever; that case is unreachable under the Config invariant and all theorems
below assume it.)  Each step appends every letter of `ALPHABET` in order. -/
def build : Nat → List Char → List (List Char)
  | 0, current => [current]
  | n + 1, current => ALPHABET.flatMap (fun letter => build n (current ++ [letter]))

/-- The generator `domainGenerator(length, prefix, suffix)` (src/index.js:70-92),
materialised as the list of candidates it yields, in yield order; the source's
`fillCount` local is inlined.  `pre` and `suf` stand for the source's `prefix`
and `suffix` parameters. -/
def domainGenerator (length : Nat) (pre suf : List Char) : List (List Char) :=
  if length - pre.length - suf.length = 0 then [pre ++ suf]
  else (build (length - pre.length - suf.length) []).map (fun middle => pre ++ middle ++ suf)

/-- The JS `\w` character class: `[A-Za-z0-9_]`. -/
def isWordChar (c : Char) : Bool :=
  ('a' ≤ c && c ≤ 'z') || ('A' ≤ c && c ≤ 'Z') || ('0' ≤ c && c ≤ '9') || c == '_'

/-- The JS `\s` character class (also the set removed by `String.trim`):
tab, line feed, vertical tab, form feed, carriage return, space and the
Unicode space characters. -/
def isSpaceChar (c : Char) : Bool :=
  ([9, 10, 11, 12, 13, 32, 160, 0x1680, 0x2000, 0x2001, 0x2002, 0x2003, 0x2004,
    0x2005, 0x2006, 0x2007, 0x2008, 0x2009, 0x200a, 0x2028, 0x2029, 0x202f,
    0x205f, 0x3000, 0xfeff] : List Nat).contains c.toNat

/-- Lowercasing of a JS string (`String.prototype.toLowerCase`, ASCII range). -/
def toLowerStr (cs : List Char) : List Char := cs.map Char.toLower

/-- Tries to strip the pattern `pat` (given in lowercase) from the front of a
text, comparing case-insensitively; returns the remaining text on success.
This is the single-position step of JS regex literal matching under the `/i`
flag. -/
def stripCaseless : List Char → List Char → Option (List Char)
  | [], rest => some rest
  | _ :: _, [] => none
  | k :: ks, c :: cs => if c.toLower = k then stripCaseless ks cs else none

/-- Whether the pattern `pat` matches the text `t` at position `i`,
case-insensitively. -/
def matchesAt (pat t : List Char) (i : Nat) : Bool :=
  (stripCaseless pat (t.drop i)).isSome

/-- Leftmost-match semantics of `output.match(/Status:\s*(\w+)/i)`
(src/index.js:128 and 145): scan left to right; at the first position where
`Status:` (case-insensitive) is followed by optional whitespace and at least
one word character, return the maximal word-character run (the capture group);
if no position matches, return `none`.  A `Status:` occurrence not followed by
a word is skipped, exactly as the regex engine backtracks past it. -/
def statusValue : List Char → Option (List Char)
  | [] => none
  | c :: cs =>
    match stripCaseless ("status:".toList) (c :: cs) with
    | some rest =>
      let w := (rest.dropWhile isSpaceChar).takeWhile isWordChar
      if w = [] then statusValue cs else some w
    | none => statusValue cs

/-- Case-insensitive substring test, the semantics of `/no match/i.test(output)`
(src/index.js:137): true iff the pattern matches at some position. -/
def hasCaseless (pat : List Char) : List Char → Bool
  | [] => (stripCaseless pat []).isSome
  | c :: cs => (stripCaseless pat (c :: cs)).isSome || hasCaseless pat cs

/-- The word the regex `/Status:\s*(\w+)/i` would capture when it matches at
position `i` of `t`: skip the 7 characters of the `Status:` key, then optional
whitespace, then take the maximal word-character run. -/
def statusWordAt (t : List Char) (i : Nat) : List Char :=
  ((t.drop (i + 7)).dropWhile isSpaceChar).takeWhile isWordChar

/-- The `de` provider's `isAvailable` (src/index.js:127-130): first `Status:`
field value, lowercased, equals `free`; `false` when the regex does not match. -/
def deIsAvailable (output : List Char) : Bool :=
  match statusValue output with
  | some w => decide (toLowerStr w = ("free".toList))
  | none => false

/-- The `net`/`com` provider's `isAvailable` (src/index.js:137):
`/no match/i.test(output)`. -/
def comNetIsAvailable (output : List Char) : Bool :=
  hasCaseless ("no match".toList) output

/-- The `eu` provider's `isAvailable` (src/index.js:144-147): first `Status:`
field value, lowercased, equals `available`; `false` when the regex does not
match. -/
def euIsAvailable (output : List Char) : Bool :=
  match statusValue output with
  | some w => decide (toLowerStr w = ("available".toList))
  | none => false

/-- A whois provider (src/index.js:123-152): lookup host and classifier. -/
structure WhoisProvider where
  host : List Char
  isAvailable : List Char → Bool

/-- `getWhoisProvider(tld)` (src/index.js:123-152); the `throw` for an
unsupported TLD is modelled as `Except.error` with the thrown message. -/
def getWhoisProvider (tld : List Char) : Except (List Char) WhoisProvider :=
  if tld = ("de".toList) then
    Except.ok ⟨("whois.denic.de".toList), deIsAvailable⟩
  else if tld = ("net".toList) ∨ tld = ("com".toList) then
    Except.ok ⟨("whois.verisign-grs.com".toList), comNetIsAvailable⟩
  else if tld = ("eu".toList) then
    Except.ok ⟨("whois.eu".toList), euIsAvailable⟩
  else
    Except.error (("Unsupported TLD: ".toList) ++ tld)

/-- What the external `whois` child process does on one invocation: either the
spawn fails (the `error` event, src/index.js:108-110) or the process closes
with an exit code, accumulated stdout and accumulated stderr
(src/index.js:112-119). -/
inductive ProcEvent where
  | spawnError (msg : List Char)
  | closed (code : Int) (stdout stderr : List Char)
deriving DecidableEq

/-- The settled result of the `whoisLookup` promise: a rejection (a recoverable
lookup error carrying a message) or a resolution `{available, raw}`. -/
inductive LookupOutcome where
  | lookupError (msg : List Char)
  | classified (available : Bool) (raw : List Char)
deriving DecidableEq

/-- JS `String.prototype.trim` on the stderr text (src/index.js:114). -/
def trim (cs : List Char) : List Char :=
  ((cs.dropWhile isSpaceChar).reverse.dropWhile isSpaceChar).reverse

/-- `whoisLookup(fqdn, provider)` (src/index.js:94-121) as a pure function of
the process event: a spawn error rejects with its message; a close with
non-zero code **and** non-empty stderr rejects with the trimmed stderr;
otherwise the promise resolves with `provider.isAvailable(stdout)` and the raw
stdout. -/
def whoisLookup (provider : WhoisProvider) (ev : ProcEvent) : LookupOutcome :=
  match ev with
  | ProcEvent.spawnError msg => LookupOutcome.lookupError msg
  | ProcEvent.closed code stdout stderr =>
    if code ≠ 0 ∧ stderr ≠ [] then LookupOutcome.lookupError (trim stderr)
    else LookupOutcome.classified (provider.isAvailable stdout) stdout

/-- The mutable accumulator of `run()` (src/index.js:181-183): `checked`,
`taken` and the ordered `availableDomains` list. -/
structure RunState where
  checked : Nat
  taken : Nat
  availableDomains : List (List Char)
deriving DecidableEq

/-- Building the fully-qualified name `` `${domain}.${topLevelDomain}` ``
(src/index.js:195). -/
def mkFqdn (domain tld : List Char) : List Char := domain ++ (".".toList) ++ tld

/-- One iteration of the `for...of` body of `run()` (src/index.js:195-212),
without the delay: on a lookup error the state is unchanged (the `continue`
branch); on a classified result `checked` is incremented and either the fqdn
is appended to `availableDomains` or `taken` is incremented. -/
def runStep (tld : List Char) (provider : WhoisProvider) (st : RunState)
    (domain : List Char) (ev : ProcEvent) : RunState :=
  match whoisLookup provider ev with
  | LookupOutcome.lookupError _ => st
  | LookupOutcome.classified avail _ =>
    if avail then
      { st with checked := st.checked + 1,
                availableDomains := st.availableDomains ++ [mkFqdn domain tld] }
    else
      { st with checked := st.checked + 1, taken := st.taken + 1 }

/-- The whole loop of `run()` (src/index.js:190-213) over the candidates paired
with their process events.  Besides the final state it records, for each
candidate in dispatch order, whether `await delay(intervalMs)` was executed
before its lookup — the source guards the delay with `if (checked > 0)`
(src/index.js:191-193). -/
def runLoopT (tld : List Char) (provider : WhoisProvider) :
    RunState → List (List Char × ProcEvent) → RunState × List Bool
  | st, [] => (st, [])
  | st, (domain, ev) :: rest =>
    let delayed := decide (0 < st.checked)
    let res := runLoopT tld provider (runStep tld provider st domain ev) rest
    (res.1, delayed :: res.2)

/-- Whether the lookup outcome for `ev` is a classification as available. -/
def classifiedAvailable (provider : WhoisProvider) (ev : ProcEvent) : Bool :=
  match whoisLookup provider ev with
  | LookupOutcome.classified true _ => true
  | _ => false

/-- Whether the lookup outcome for `ev` is a classification (of either kind). -/
def classifiedOk (provider : WhoisProvider) (ev : ProcEvent) : Bool :=
  match whoisLookup provider ev with
  | LookupOutcome.classified _ _ => true
  | _ => false

/-- Whether the lookup outcome for `ev` is a classification as taken. -/
def classifiedTaken (provider : WhoisProvider) (ev : ProcEvent) : Bool :=
  match whoisLookup provider ev with
  | LookupOutcome.classified false _ => true
  | _ => false

/-- The validated configuration returned by `readConfig` (src/index.js:49-55).
`pre` and `suf` stand for the source's `prefix` and `suffix` fields. -/
structure Config where
  domainLength : Nat
  pre : List Char
  suf : List Char
  intervalMs : Int
  topLevelDomain : List Char
deriving DecidableEq

/-- The parsed `config.json` contents as far as `readConfig` reads them, with
absent fields as `none` (the source applies `?? defaults`).  `length` is the
value after the `Number(...)` coercion; non-numeric and fractional values are
outside the modelled domain. -/
structure RawConfig where
  length : Int
  pre : Option (List Char)
  suf : Option (List Char)
  intervalMs : Option Int
  topLevelDomain : Option (List Char)

/-- `validateAffix(value, name)` (src/index.js:58-68): the regex
`/^$|^[a-z]+$/` accepts exactly the strings all of whose characters are in
`a`-`z` (the empty string included). -/
def validateAffix (value : List Char) (name : List Char) :
    Except (List Char) (List Char) :=
  if value.all (fun c => 'a' ≤ c && c ≤ 'z') then Except.ok value
  else Except.error (name ++ (" must only contain lowercase a-z characters.".toList))

/-- `readConfig()` (src/index.js:14-56) from the parsed JSON onward, with each
`throw` modelled as `Except.error` carrying the thrown message, in source
order: length range check, affix validation, the `prefix`/`suffix`-versus-
length invariant, the interval check, then TLD lowercasing and the supported-
set check. -/
def readConfig (parsed : RawConfig) : Except (List Char) Config :=
  if parsed.length < MIN_LENGTH ∨ MAX_LENGTH < parsed.length then
    Except.error ("\"length\" must be an integer between 2 and 63.".toList)
  else
    match validateAffix (parsed.pre.getD []) ("prefix".toList) with
    | Except.error e => Except.error e
    | Except.ok p =>
      match validateAffix (parsed.suf.getD []) ("suffix".toList) with
      | Except.error e => Except.error e
      | Except.ok s =>
        if parsed.length ≤ (p.length : Int) + (s.length : Int) then
          Except.error ("prefix + suffix length must be shorter than the domain length.".toList)
        else
          if parsed.intervalMs.getD DEFAULT_INTERVAL_MS < 0 then
            Except.error ("intervalMs must be a non-negative number of milliseconds when provided.".toList)
          else
            if toLowerStr (parsed.topLevelDomain.getD ("de".toList)) ∈ SUPPORTED_TLDS then
              Except.ok ⟨parsed.length.toNat, p, s, parsed.intervalMs.getD DEFAULT_INTERVAL_MS,
                toLowerStr (parsed.topLevelDomain.getD ("de".toList))⟩
            else
              Except.error ("topLevelDomain must be one of: de, net, eu, com".toList)

/-- `run()` (src/index.js:170-225) end to end for a given parsed configuration
and list of process events: a configuration error (from `readConfig` or
`getWhoisProvider`) aborts before any candidate is processed; otherwise the
loop runs over the generated candidates zipped with their events and the final
state plus the per-candidate delay flags are returned. -/
def runProgram (parsed : RawConfig) (events : List ProcEvent) :
    Except (List Char) (RunState × List Bool) :=
  match readConfig parsed with
  | Except.error e => Except.error e
  | Except.ok config =>
    match getWhoisProvider config.topLevelDomain with
    | Except.error e => Except.error e
    | Except.ok provider =>
      let generator := domainGenerator config.domainLength config.pre config.suf
      Except.ok (runLoopT config.topLevelDomain provider ⟨0, 0, []⟩ (generator.zip events))

/-- Stripping a caseless pattern, when it succeeds, returns the text with the
pattern's length dropped. -/
theorem stripCaseless_eq_drop (pat : List Char) :
    ∀ cs rest : List Char, stripCaseless pat cs = some rest → rest = cs.drop pat.length := by
  induction pat with
  | nil => intro cs rest h; simpa [stripCaseless] using h.symm
  | cons k ks ih =>
    intro cs rest h
    cases cs with
    | nil => simp [stripCaseless] at h
    | cons c cs =>
      by_cases hk : c.toLower = k
      · simp only [stripCaseless, if_pos hk] at h
        simpa using ih cs rest h
      · simp [stripCaseless, if_neg hk] at h

/-- The executable caseless-substring scan agrees with the positional
specification: a match exists iff it matches at some index. -/
theorem hasCaseless_iff_matchesAt (pat t : List Char) :
    hasCaseless pat t = true ↔ ∃ i, matchesAt pat t i = true := by
  induction t with
  | nil =>
    simp only [hasCaseless, matchesAt, List.drop_nil]
    exact ⟨fun h => ⟨0, h⟩, fun ⟨_, h⟩ => h⟩
  | cons c cs ih =>
    simp only [hasCaseless, Bool.or_eq_true, ih]
    constructor
    · rintro (h | ⟨i, hi⟩)
      · exact ⟨0, by simpa [matchesAt] using h⟩
      · exact ⟨i + 1, by simpa [matchesAt] using hi⟩
    · rintro ⟨i, hi⟩
      match i with
      | 0 => exact Or.inl (by simpa [matchesAt] using hi)
      | j + 1 => exact Or.inr ⟨j, by simpa [matchesAt] using hi⟩

/-- If `status:` matches (caselessly) first at position `i` and a non-empty
word follows there, the scanner returns exactly that word: the regex consults
the first `Status:` field. -/
theorem statusValue_first (t : List Char) (i : Nat)
    (h1 : matchesAt ("status:".toList) t i = true)
    (h2 : ∀ j, j < i → matchesAt ("status:".toList) t j = false)
    (h3 : statusWordAt t i ≠ []) :
    statusValue t = some (statusWordAt t i) := by
  induction i generalizing t with
  | zero =>
    cases t with
    | nil => simp [matchesAt, stripCaseless] at h1
    | cons c cs =>
      simp only [matchesAt, List.drop_zero, Option.isSome_iff_exists] at h1
      obtain ⟨rest, hrest⟩ := h1
      have hdrop := stripCaseless_eq_drop _ _ _ hrest
      simp only [statusValue, hrest]
      have : rest = (c :: cs).drop 7 := by simpa using hdrop
      rw [this]
      have hw : ((((c :: cs).drop 7).dropWhile isSpaceChar).takeWhile isWordChar) ≠ [] := by
        simpa [statusWordAt] using h3
      simp only [if_neg hw]
      simp [statusWordAt]
  | succ i ih =>
    have h0 : matchesAt ("status:".toList) t 0 = false := h2 0 (Nat.succ_pos i)
    cases t with
    | nil => simp [matchesAt, stripCaseless] at h1
    | cons c cs =>
      simp only [matchesAt, List.drop_zero] at h0
      have hnone : stripCaseless ("status:".toList) (c :: cs) = none := by
        cases hsc : stripCaseless ("status:".toList) (c :: cs) with
        | none => rfl
        | some rest => rw [hsc] at h0; simp at h0
      simp only [statusValue, hnone]
      have hdrop : (c :: cs).drop (i + 1 + 7) = cs.drop (i + 7) := by
        have he : i + 1 + 7 = (i + 7) + 1 := by omega
        rw [he, List.drop_succ_cons]
      exact ih cs (by simpa [matchesAt] using h1)
        (fun j hj => by simpa [matchesAt] using h2 (j + 1) (Nat.succ_lt_succ hj))
        (by simpa only [statusWordAt, hdrop] using h3)

/-- Appending letters from a common stem factors out of `build`. -/
theorem build_eq_map (n : Nat) (cur : List Char) :
    build n cur = (build n []).map (fun m => cur ++ m) := by
  induction n generalizing cur with
  | zero => simp [build]
  | succ n ih =>
    simp only [build, List.map_flatMap]
    congr 1
    funext letter
    rw [ih (cur ++ [letter]), ih ([] ++ [letter]), List.map_map]
    congr 1
    funext m
    simp [List.append_assoc]

/-- The generator's inner `build` produces exactly `26 ^ n` strings. -/
theorem build_length (n : Nat) (cur : List Char) : (build n cur).length = 26 ^ n := by
  induction n generalizing cur with
  | zero => rfl
  | succ n ih =>
    simp only [build, List.length_flatMap]
    have hmap : List.map (List.length ∘ fun letter => build n (cur ++ [letter])) ALPHABET
        = List.replicate ALPHABET.length (26 ^ n) := by
      rw [← List.map_const]
      exact List.map_congr_left (fun a _ => ih (cur ++ [a]))
    rw [hmap, List.sum_replicate, smul_eq_mul]
    have : ALPHABET.length = 26 := rfl
    rw [this, pow_succ, Nat.mul_comm]

/-- Every string produced by `build n` from the empty stem has length `n` and
uses only alphabet letters. -/
theorem mem_build (n : Nat) : ∀ m ∈ build n [], m.length = n ∧ ∀ c ∈ m, c ∈ ALPHABET := by
  induction n with
  | zero =>
    intro m hm
    simp only [build, List.mem_singleton] at hm
    subst hm
    simp
  | succ n ih =>
    intro m hm
    simp only [build, List.mem_flatMap] at hm
    obtain ⟨letter, hl, hm⟩ := hm
    rw [build_eq_map n ([] ++ [letter])] at hm
    simp only [List.nil_append, List.mem_map] at hm
    obtain ⟨m0, hm0, rfl⟩ := hm
    obtain ⟨hlen, hchars⟩ := ih m0 hm0
    refine ⟨by simp [hlen, Nat.add_comm], ?_⟩
    intro c hc
    rcases List.mem_append.1 hc with hc | hc
    · simp only [List.mem_singleton] at hc
      subst hc
      exact hl
    · exact hchars c hc

/-- The middles produced by `build n` are strictly increasing in lexicographic
order. -/
theorem build_sorted (n : Nat) : List.Pairwise (List.Lex (· < ·)) (build n []) := by
  induction n with
  | zero => exact List.pairwise_singleton _ _
  | succ n ih =>
    have hblocks : ∀ letter : Char,
        build n ([] ++ [letter]) = (build n []).map (fun m => letter :: m) := by
      intro letter
      rw [build_eq_map]
      simp
    simp only [build, List.flatMap_def]
    rw [List.pairwise_flatten]
    constructor
    · intro l hl
      simp only [List.mem_map] at hl
      obtain ⟨letter, _, rfl⟩ := hl
      rw [hblocks letter, List.pairwise_map]
      exact ih.imp (fun h => List.Lex.cons h)
    · rw [List.pairwise_map]
      have halpha : List.Pairwise (· < ·) ALPHABET := by decide
      refine halpha.imp ?_
      intro a b hab x hx y hy
      rw [hblocks a] at hx
      rw [hblocks b] at hy
      simp only [List.mem_map] at hx hy
      obtain ⟨mx, _, rfl⟩ := hx
      obtain ⟨my, _, rfl⟩ := hy
      exact List.Lex.rel hab

/-- After the loop, `checked` has grown by the number of items whose lookup
was classified (either verdict). -/
theorem runLoopT_checked (tld : List Char) (provider : WhoisProvider) :
    ∀ (items : List (List Char × ProcEvent)) (st : RunState),
    (runLoopT tld provider st items).1.checked =
      st.checked + (items.filter (fun it => classifiedOk provider it.2)).length := by
  intro items
  induction items with
  | nil => intro st; simp [runLoopT]
  | cons it rest ih =>
    intro st
    obtain ⟨domain, ev⟩ := it
    simp only [runLoopT]
    rw [ih]
    cases hev : whoisLookup provider ev with
    | lookupError msg =>
      simp [runStep, hev, classifiedOk, List.filter_cons]
    | classified avail raw =>
      cases avail <;> simp [runStep, hev, classifiedOk, List.filter_cons] <;> omega

/-- After the loop, `taken` has grown by the number of items classified taken. -/
theorem runLoopT_taken (tld : List Char) (provider : WhoisProvider) :
    ∀ (items : List (List Char × ProcEvent)) (st : RunState),
    (runLoopT tld provider st items).1.taken =
      st.taken + (items.filter (fun it => classifiedTaken provider it.2)).length := by
  intro items
  induction items with
  | nil => intro st; simp [runLoopT]
  | cons it rest ih =>
    intro st
    obtain ⟨domain, ev⟩ := it
    simp only [runLoopT]
    rw [ih]
    cases hev : whoisLookup provider ev with
    | lookupError msg =>
      simp [runStep, hev, classifiedTaken, List.filter_cons]
    | classified avail raw =>
      cases avail <;> simp [runStep, hev, classifiedTaken, List.filter_cons] <;> omega

/-- After the loop, `availableDomains` has been extended by the fqdns of the
items classified available, in dispatch order. -/
theorem runLoopT_avail (tld : List Char) (provider : WhoisProvider) :
    ∀ (items : List (List Char × ProcEvent)) (st : RunState),
    (runLoopT tld provider st items).1.availableDomains =
      st.availableDomains ++
        (items.filter (fun it => classifiedAvailable provider it.2)).map
          (fun it => mkFqdn it.1 tld) := by
  intro items
  induction items with
  | nil => intro st; simp [runLoopT]
  | cons it rest ih =>
    intro st
    obtain ⟨domain, ev⟩ := it
    simp only [runLoopT]
    rw [ih]
    cases hev : whoisLookup provider ev with
    | lookupError msg =>
      simp [runStep, hev, classifiedAvailable, List.filter_cons]
    | classified avail raw =>
      cases avail <;> simp [runStep, hev, classifiedAvailable, List.filter_cons]

/-- Classified items split into taken ones and available ones. -/
theorem filter_ok_split (provider : WhoisProvider) :
    ∀ items : List (List Char × ProcEvent),
    (items.filter (fun it => classifiedOk provider it.2)).length =
      (items.filter (fun it => classifiedTaken provider it.2)).length +
      (items.filter (fun it => classifiedAvailable provider it.2)).length := by
  intro items
  induction items with
  | nil => rfl
  | cons it rest ih =>
    cases hev : whoisLookup provider it.2 with
    | lookupError msg =>
      have h1 : classifiedOk provider it.2 = false := by simp [classifiedOk, hev]
      have h2 : classifiedTaken provider it.2 = false := by simp [classifiedTaken, hev]
      have h3 : classifiedAvailable provider it.2 = false := by simp [classifiedAvailable, hev]
      simp only [List.filter_cons, h1, h2, h3, Bool.false_eq_true, if_false]
      exact ih
    | classified avail raw =>
      have h1 : classifiedOk provider it.2 = true := by simp [classifiedOk, hev]
      have h2 : classifiedTaken provider it.2 = !avail := by
        cases avail <;> simp [classifiedTaken, hev]
      have h3 : classifiedAvailable provider it.2 = avail := by
        cases avail <;> simp [classifiedAvailable, hev]
      cases avail <;>
        simp only [List.filter_cons, h1, h2, h3, Bool.not_true, Bool.not_false,
          Bool.false_eq_true, if_false, if_true, List.length_cons] <;>
        omega

/-- The delay flag of candidate `i` records whether `checked` was positive
after the first `i` items were processed. -/
theorem runLoopT_delay_get (tld : List Char) (provider : WhoisProvider) :
    ∀ (items : List (List Char × ProcEvent)) (st : RunState) (i : Nat), i < items.length →
    (runLoopT tld provider st items).2[i]? =
      some (decide (0 < (runLoopT tld provider st (items.take i)).1.checked)) := by
  intro items
  induction items with
  | nil => intro st i h; simp at h
  | cons it rest ih =>
    intro st i h
    obtain ⟨domain, ev⟩ := it
    match i with
    | 0 => simp [runLoopT]
    | j + 1 =>
      simp only [runLoopT, List.take_succ_cons, List.getElem?_cons_succ]
      exact ih (runStep tld provider st domain ev) j (by simpa using h)

/-- One delay flag is recorded per candidate. -/
theorem runLoopT_snd_length (tld : List Char) (provider : WhoisProvider) :
    ∀ (items : List (List Char × ProcEvent)) (st : RunState),
    (runLoopT tld provider st items).2.length = items.length := by
  intro items
  induction items with
  | nil => intro st; rfl
  | cons it rest ih =>
    intro st
    obtain ⟨domain, ev⟩ := it
    simp only [runLoopT, List.length_cons, ih]

/-- A successful `validateAffix` returns its input unchanged. -/
theorem validateAffix_ok (value name v : List Char) :
    validateAffix value name = Except.ok v → v = value := by
  unfold validateAffix
  split
  · intro h
    injection h with h
    exact h.symm
  · intro h
    cases h

set_option maxRecDepth 16000 in
/-- C1: for every `(domainLength, prefix, suffix)` with
`len(prefix) + len(suffix) < domainLength`, `domainGenerator` yields exactly
`26 ^ fillCount` candidates, each equal to `prefix ++ middle ++ suffix` with
`middle` of length `fillCount` over `a`-`z`, the middles in strictly
increasing lexicographic order; when `fillCount = 0` the sequence is exactly
`[prefix ++ suffix]`; and for `domainLength = 4`, `prefix = "gl"`,
`suffix = ""` it yields 676 candidates, the first `"glaa"` and the last
`"glzz"`. -/
theorem domainGenerator_spec :
    (∀ (length : Nat) (pre suf : List Char), pre.length + suf.length < length →
      (domainGenerator length pre suf).length = 26 ^ (length - pre.length - suf.length) ∧
      domainGenerator length pre suf =
        (build (length - pre.length - suf.length) []).map
          (fun middle => pre ++ middle ++ suf) ∧
      (∀ middle ∈ build (length - pre.length - suf.length) [],
        middle.length = length - pre.length - suf.length ∧ ∀ c ∈ middle, c ∈ ALPHABET) ∧
      List.Pairwise (List.Lex (· < ·)) (build (length - pre.length - suf.length) [])) ∧
    (∀ (length : Nat) (pre suf : List Char), pre.length + suf.length = length →
      domainGenerator length pre suf = [pre ++ suf]) ∧
    (domainGenerator 4 ("gl".toList) []).length = 676 ∧
    (domainGenerator 4 ("gl".toList) []).head? = some ("glaa".toList) ∧
    (domainGenerator 4 ("gl".toList) []).getLast? = some ("glzz".toList) := by
  refine ⟨?_, ?_, ?_, ?_, ?_⟩
  · intro length pre suf h
    have hfc : length - pre.length - suf.length ≠ 0 := by omega
    have heq : domainGenerator length pre suf =
        (build (length - pre.length - suf.length) []).map
          (fun middle => pre ++ middle ++ suf) := by
      simp only [domainGenerator, if_neg hfc]
    refine ⟨?_, heq, mem_build _, build_sorted _⟩
    rw [heq, List.length_map, build_length]
  · intro length pre suf h
    have hfc : length - pre.length - suf.length = 0 := by omega
    simp only [domainGenerator, if_pos hfc]
  · decide
  · decide
  · decide

/-- C1 witness: the generator theorem applied at `domainLength = 5`,
`prefix = "a"`, `suffix = "b"` (count) and at `domainLength = 2`,
`prefix = "a"`, `suffix = "b"` (the `fillCount = 0` clause). -/
theorem domainGenerator_spec_witness :
    (domainGenerator 5 ("a".toList) ("b".toList)).length =
      26 ^ (5 - ("a".toList).length - ("b".toList).length) ∧
    domainGenerator 2 ("a".toList) ("b".toList) = [("a".toList) ++ ("b".toList)] :=
  ⟨(domainGenerator_spec.1 5 ("a".toList) ("b".toList) (by decide)).1,
   domainGenerator_spec.2.1 2 ("a".toList) ("b".toList) (by decide)⟩

/-- C2: for every completed run over candidates dispatched by the generator,
the final state satisfies `checked = taken + |availableDomains|`, and
`availableDomains` is exactly the list of fqdns of the candidates classified
available, in dispatch order. -/
theorem run_summary_invariant (tld : List Char) (provider : WhoisProvider)
    (length : Nat) (pre suf : List Char) (events : List ProcEvent)
    (hlen : events.length = (domainGenerator length pre suf).length) :
    ((runLoopT tld provider ⟨0, 0, []⟩
        ((domainGenerator length pre suf).zip events)).1.checked =
      (runLoopT tld provider ⟨0, 0, []⟩
        ((domainGenerator length pre suf).zip events)).1.taken +
      (runLoopT tld provider ⟨0, 0, []⟩
        ((domainGenerator length pre suf).zip events)).1.availableDomains.length) ∧
    (runLoopT tld provider ⟨0, 0, []⟩
        ((domainGenerator length pre suf).zip events)).1.availableDomains =
      (((domainGenerator length pre suf).zip events).filter
        (fun it => classifiedAvailable provider it.2)).map (fun it => mkFqdn it.1 tld) := by
  have havail := runLoopT_avail tld provider
    ((domainGenerator length pre suf).zip events) ⟨0, 0, []⟩
  simp only [List.nil_append] at havail
  refine ⟨?_, havail⟩
  rw [runLoopT_checked, runLoopT_taken, havail, List.length_map]
  simpa using filter_ok_split provider ((domainGenerator length pre suf).zip events)

/-- C2 witness: the summary invariant for a complete 26-candidate `.de` run in
which every lookup closes successfully with a `Status: free` response. -/
theorem run_summary_invariant_witness :
    ((runLoopT ("de".toList) ⟨("whois.denic.de".toList), deIsAvailable⟩ ⟨0, 0, []⟩
        ((domainGenerator 2 ("a".toList) []).zip
          (List.replicate 26 (ProcEvent.closed 0 ("Status: free".toList) [])))).1.checked =
      (runLoopT ("de".toList) ⟨("whois.denic.de".toList), deIsAvailable⟩ ⟨0, 0, []⟩
        ((domainGenerator 2 ("a".toList) []).zip
          (List.replicate 26 (ProcEvent.closed 0 ("Status: free".toList) [])))).1.taken +
      (runLoopT ("de".toList) ⟨("whois.denic.de".toList), deIsAvailable⟩ ⟨0, 0, []⟩
        ((domainGenerator 2 ("a".toList) []).zip
          (List.replicate 26 (ProcEvent.closed 0 ("Status: free".toList) [])))).1.availableDomains.length) :=
  (run_summary_invariant ("de".toList) ⟨("whois.denic.de".toList), deIsAvailable⟩
    2 ("a".toList) [] (List.replicate 26 (ProcEvent.closed 0 ("Status: free".toList) []))
    (by decide)).1

/-- C3 counterexample: the text `"Status: connect\nStatus: free\n"` contains
the substring `Status: free`, yet the `de` classifier returns `false`, because
the regex consults the first `Status:` field (`connect`).  This refutes the
claim that any text containing `Status: free` is classified available. -/
theorem de_claimed_rule_false :
    hasCaseless ("status: free".toList) ("Status: connect\nStatus: free\n".toList) = true ∧
    deIsAvailable ("Status: connect\nStatus: free\n".toList) = false := by decide

/-- C3 amended: the `de` classifier returns `true` iff the first `Status:`
field with a word value (the regex capture) lowercases to `free`, and in
particular returns `false` when that value is `connect`; the `com`/`net`
classifier returns `true` iff the text contains `no match` case-insensitively;
the `eu` classifier returns `true` iff the first `Status:` field value
lowercases to `available`; and a text with no recognizable field or substring
is classified `false` by each classifier (never an error). -/
theorem classifiers_spec (t : List Char) :
    (deIsAvailable t = true ↔
      ∃ w, statusValue t = some w ∧ toLowerStr w = ("free".toList)) ∧
    (∀ w, statusValue t = some w → toLowerStr w = ("connect".toList) →
      deIsAvailable t = false) ∧
    (comNetIsAvailable t = true ↔ ∃ i, matchesAt ("no match".toList) t i = true) ∧
    (euIsAvailable t = true ↔
      ∃ w, statusValue t = some w ∧ toLowerStr w = ("available".toList)) ∧
    (statusValue t = none → deIsAvailable t = false ∧ euIsAvailable t = false) := by
  refine ⟨?_, ?_, ?_, ?_, ?_⟩
  · cases h : statusValue t with
    | none => simp [deIsAvailable, h]
    | some w => simp [deIsAvailable, h]
  · intro w hw hconn
    simp only [deIsAvailable, hw]
    rw [hconn]
    decide
  · exact hasCaseless_iff_matchesAt _ _
  · cases h : statusValue t with
    | none => simp [euIsAvailable, h]
    | some w => simp [euIsAvailable, h]
  · intro h
    constructor <;> simp [deIsAvailable, euIsAvailable, h]

/-- C3 witness: the amended classifier rules evaluated on concrete responses
of each provider family. -/
theorem classifiers_spec_witness :
    deIsAvailable ("Status: free".toList) = true ∧
    deIsAvailable ("Status: connect".toList) = false ∧
    comNetIsAvailable ("No match for domain".toList) = true ∧
    euIsAvailable ("Status: AVAILABLE".toList) = true ∧
    deIsAvailable ("hello world".toList) = false := by
  refine ⟨?_, ?_, ?_, ?_, ?_⟩
  · exact (classifiers_spec ("Status: free".toList)).1.mpr
      ⟨("free".toList), by decide, by decide⟩
  · exact (classifiers_spec ("Status: connect".toList)).2.1
      ("connect".toList) (by decide) (by decide)
  · exact (classifiers_spec ("No match for domain".toList)).2.2.1.mpr ⟨0, by decide⟩
  · exact (classifiers_spec ("Status: AVAILABLE".toList)).2.2.2.1.mpr
      ⟨("AVAILABLE".toList), by decide, by decide⟩
  · exact ((classifiers_spec ("hello world".toList)).2.2.2.2 (by decide)).1

/-- C4: the lookup outcome is a recoverable error iff the process could not be
spawned or it exited non-zero with non-empty stderr (carrying the trimmed
stderr); in every other case — including non-zero exit with empty stderr and
zero exit with non-empty stderr — the outcome is the classification of the
stdout text by the provider's classifier. -/
theorem whoisLookup_cases (provider : WhoisProvider) (ev : ProcEvent) :
    ((∃ msg, whoisLookup provider ev = LookupOutcome.lookupError msg) ↔
      ((∃ m, ev = ProcEvent.spawnError m) ∨
       (∃ code stdout stderr, ev = ProcEvent.closed code stdout stderr ∧
         code ≠ 0 ∧ stderr ≠ []))) ∧
    (∀ m, ev = ProcEvent.spawnError m →
      whoisLookup provider ev = LookupOutcome.lookupError m) ∧
    (∀ code stdout stderr, ev = ProcEvent.closed code stdout stderr → code ≠ 0 → stderr ≠ [] →
      whoisLookup provider ev = LookupOutcome.lookupError (trim stderr)) ∧
    (∀ code stdout stderr, ev = ProcEvent.closed code stdout stderr → ¬(code ≠ 0 ∧ stderr ≠ []) →
      whoisLookup provider ev = LookupOutcome.classified (provider.isAvailable stdout) stdout) := by
  cases ev with
  | spawnError m => simp [whoisLookup]
  | closed code stdout stderr =>
    by_cases h : code ≠ 0 ∧ stderr ≠ [] <;>
      simp [whoisLookup, h] <;> tauto

/-- C4 witness: a close with exit code 1 and stderr `"x"` is a lookup error
carrying the trimmed stderr. -/
theorem whoisLookup_cases_witness :
    whoisLookup ⟨[], deIsAvailable⟩ (ProcEvent.closed 1 [] ("x".toList)) =
      LookupOutcome.lookupError (trim ("x".toList)) :=
  (whoisLookup_cases ⟨[], deIsAvailable⟩ (ProcEvent.closed 1 [] ("x".toList))).2.2.1
    1 [] ("x".toList) rfl (by decide) (by decide)

/-- C5 counterexample: in a `.de` run whose first candidate fails with a spawn
error, the second candidate is dispatched **without** a delay (`checked` is
still 0), refuting the claim that the delay is applied before every candidate
after the first. -/
theorem delay_claim_false :
    ¬ (∀ (items : List (List Char × ProcEvent)) (i : Nat),
        0 < i → i < (runLoopT ("de".toList) ⟨("whois.denic.de".toList), deIsAvailable⟩
          ⟨0, 0, []⟩ items).2.length →
        (runLoopT ("de".toList) ⟨("whois.denic.de".toList), deIsAvailable⟩
          ⟨0, 0, []⟩ items).2[i]? = some true) := by
  intro h
  have := h [(("aa".toList), ProcEvent.spawnError ("no whois".toList)),
             (("ab".toList), ProcEvent.closed 0 [] [])] 1 (by decide) (by decide)
  exact absurd this (by decide)

/-- C5 amended: one delay flag is recorded per candidate, and the delay is
executed before candidate `i` iff `checked > 0` at that moment — that is, iff
at least one earlier candidate was successfully classified.  In particular no
delay precedes the first candidate, and no delay precedes a candidate all of
whose predecessors failed with lookup errors. -/
theorem delay_flags_spec (tld : List Char) (provider : WhoisProvider) (st : RunState)
    (items : List (List Char × ProcEvent)) :
    ((runLoopT tld provider st items).2.length = items.length) ∧
    (∀ i, i < items.length →
      (runLoopT tld provider st items).2[i]? =
        some (decide (0 < (runLoopT tld provider st (items.take i)).1.checked))) ∧
    (st.checked = 0 → ∀ i, i < items.length →
      ((runLoopT tld provider st items).2[i]? = some true ↔
        0 < ((items.take i).filter (fun it => classifiedOk provider it.2)).length)) := by
  refine ⟨runLoopT_snd_length tld provider items st,
    fun i hi => runLoopT_delay_get tld provider items st i hi, ?_⟩
  intro hz i hi
  rw [runLoopT_delay_get tld provider items st i hi,
    runLoopT_checked tld provider (items.take i) st, hz]
  simp

/-- C5 witness: the delay-flag characterisation applied to the second
candidate of a concrete two-candidate run whose first lookup fails. -/
theorem delay_flags_spec_witness :
    (runLoopT ("de".toList) ⟨("whois.denic.de".toList), deIsAvailable⟩ ⟨0, 0, []⟩
      [(("aa".toList), ProcEvent.spawnError ("no whois".toList)),
       (("ab".toList), ProcEvent.closed 0 [] [])]).2[1]? =
      some (decide (0 < (runLoopT ("de".toList) ⟨("whois.denic.de".toList), deIsAvailable⟩
        ⟨0, 0, []⟩
        ([(("aa".toList), ProcEvent.spawnError ("no whois".toList)),
          (("ab".toList), ProcEvent.closed 0 [] [])].take 1)).1.checked)) :=
  (delay_flags_spec ("de".toList) ⟨("whois.denic.de".toList), deIsAvailable⟩ ⟨0, 0, []⟩
    [(("aa".toList), ProcEvent.spawnError ("no whois".toList)),
     (("ab".toList), ProcEvent.closed 0 [] [])]).2.1 1 (by decide)

/-- C6: a candidate whose lookup fails leaves the orchestrator state exactly
unchanged (no `checked`, `taken` or `availableDomains` update), and the final
state of any run containing such a candidate equals the final state of the
same run with the failed candidate removed. -/
theorem lookup_error_skipped (tld : List Char) (provider : WhoisProvider) (st : RunState)
    (front back : List (List Char × ProcEvent)) (domain : List Char) (ev : ProcEvent)
    (msg : List Char) (herr : whoisLookup provider ev = LookupOutcome.lookupError msg) :
    runStep tld provider st domain ev = st ∧
    (runLoopT tld provider st (front ++ (domain, ev) :: back)).1 =
      (runLoopT tld provider st (front ++ back)).1 := by
  have hstep : ∀ s : RunState, runStep tld provider s domain ev = s := fun s => by
    simp [runStep, herr]
  refine ⟨hstep st, ?_⟩
  induction front generalizing st with
  | nil => simp [runLoopT, hstep]
  | cons it rest ih =>
    obtain ⟨d, e⟩ := it
    simp only [List.cons_append, runLoopT]
    exact ih (runStep tld provider st d e)

/-- C6 witness: a spawn-error candidate in the middle of a concrete run is
absent from the final state. -/
theorem lookup_error_skipped_witness :
    runStep ("de".toList) ⟨("whois.denic.de".toList), deIsAvailable⟩ ⟨3, 2, [("x.de".toList)]⟩
      ("aa".toList) (ProcEvent.spawnError ("boom".toList)) = ⟨3, 2, [("x.de".toList)]⟩ ∧
    (runLoopT ("de".toList) ⟨("whois.denic.de".toList), deIsAvailable⟩ ⟨3, 2, [("x.de".toList)]⟩
      ([(("ab".toList), ProcEvent.closed 0 ("Status: free".toList) [])] ++
        (("aa".toList), ProcEvent.spawnError ("boom".toList)) ::
        [(("ac".toList), ProcEvent.closed 0 [] [])])).1 =
    (runLoopT ("de".toList) ⟨("whois.denic.de".toList), deIsAvailable⟩ ⟨3, 2, [("x.de".toList)]⟩
      ([(("ab".toList), ProcEvent.closed 0 ("Status: free".toList) [])] ++
        [(("ac".toList), ProcEvent.closed 0 [] [])])).1 :=
  lookup_error_skipped ("de".toList) ⟨("whois.denic.de".toList), deIsAvailable⟩
    ⟨3, 2, [("x.de".toList)]⟩
    [(("ab".toList), ProcEvent.closed 0 ("Status: free".toList) [])]
    [(("ac".toList), ProcEvent.closed 0 [] [])]
    ("aa".toList) (ProcEvent.spawnError ("boom".toList)) ("boom".toList) (by decide)

/-- C7: a configuration with `len(prefix) + len(suffix) >= domainLength` makes
`readConfig` fail with a configuration error, and the whole program then
aborts before any candidate is generated or looked up; and any TLD outside
`{de, net, eu, com}` makes `getWhoisProvider` fail with the configuration
error `Unsupported TLD`. -/
theorem config_invariant_fatal (parsed : RawConfig) (tld : List Char) :
    ((((parsed.pre.getD []).length : Int) + ((parsed.suf.getD []).length : Int) ≥ parsed.length →
      (∃ e, readConfig parsed = Except.error e) ∧
      (∀ events, ∃ e, runProgram parsed events = Except.error e)) ∧
    (tld ≠ ("de".toList) → tld ≠ ("net".toList) → tld ≠ ("eu".toList) → tld ≠ ("com".toList) →
      getWhoisProvider tld = Except.error (("Unsupported TLD: ".toList) ++ tld))) := by
  constructor
  · intro hge
    have hrc : ∃ e, readConfig parsed = Except.error e := by
      by_cases h1 : parsed.length < MIN_LENGTH ∨ MAX_LENGTH < parsed.length
      · exact ⟨_, by simp only [readConfig, if_pos h1]; rfl⟩
      · cases hva : validateAffix (parsed.pre.getD []) ("prefix".toList) with
        | error e => exact ⟨e, by simp only [readConfig, if_neg h1, hva]⟩
        | ok p =>
          cases hvs : validateAffix (parsed.suf.getD []) ("suffix".toList) with
          | error e => exact ⟨e, by simp only [readConfig, if_neg h1, hva, hvs]⟩
          | ok s =>
            have hp := validateAffix_ok _ _ _ hva
            have hs := validateAffix_ok _ _ _ hvs
            have hcond : parsed.length ≤ (p.length : Int) + (s.length : Int) := by
              rw [hp, hs]; omega
            exact ⟨_, by simp only [readConfig, if_neg h1, hva, hvs, if_pos hcond]; rfl⟩
    obtain ⟨e, he⟩ := hrc
    exact ⟨⟨e, he⟩, fun events => ⟨e, by simp [runProgram, he]⟩⟩
  · intro h1 h2 h3 h4
    unfold getWhoisProvider
    rw [if_neg h1, if_neg (by tauto : ¬(tld = ("net".toList) ∨ tld = ("com".toList))),
      if_neg h3]

/-- C7 witness: `length = 4` with `prefix = "ab"`, `suffix = "cd"` is rejected
by `readConfig`, and the TLD `"xx"` is rejected by `getWhoisProvider`. -/
theorem config_invariant_fatal_witness :
    (∃ e, readConfig ⟨4, some ("ab".toList), some ("cd".toList), none, none⟩ =
      Except.error e) ∧
    getWhoisProvider ("xx".toList) =
      Except.error (("Unsupported TLD: ".toList) ++ ("xx".toList)) :=
  ⟨((config_invariant_fatal ⟨4, some ("ab".toList), some ("cd".toList), none, none⟩
      ("xx".toList)).1 (by decide)).1,
   (config_invariant_fatal ⟨4, some ("ab".toList), some ("cd".toList), none, none⟩
      ("xx".toList)).2 (by decide) (by decide) (by decide) (by decide)⟩

/-- C8: each supported provider's classifier is a deterministic pure function
of the raw response text: on equal inputs it yields equal verdicts. -/
theorem classify_deterministic (tld : List Char) (provider : WhoisProvider)
    (h : getWhoisProvider tld = Except.ok provider) (t₁ t₂ : List Char) (he : t₁ = t₂) :
    provider.isAvailable t₁ = provider.isAvailable t₂ := by
  subst he; rfl

/-- C8 witness: determinism of the `de` provider's classifier on a concrete
response. -/
theorem classify_deterministic_witness :
    (WhoisProvider.mk ("whois.denic.de".toList) deIsAvailable).isAvailable
        ("Status: free".toList) =
      (WhoisProvider.mk ("whois.denic.de".toList) deIsAvailable).isAvailable
        ("Status: free".toList) :=
  classify_deterministic ("de".toList) _ rfl _ _ rfl

/-- C9: the `de` and `eu` classifiers consult only the first `Status:` field:
when `Status:` first matches at position `i` and the word captured there does
not lowercase to `free` (resp. `available`), the classifier returns `false` —
whatever appears later in the text. -/
theorem first_status_field_wins (t : List Char) (i : Nat)
    (h1 : matchesAt ("status:".toList) t i = true)
    (h2 : ∀ j, j < i → matchesAt ("status:".toList) t j = false)
    (h3 : statusWordAt t i ≠ []) :
    (toLowerStr (statusWordAt t i) ≠ ("free".toList) → deIsAvailable t = false) ∧
    (toLowerStr (statusWordAt t i) ≠ ("available".toList) → euIsAvailable t = false) := by
  have hsv := statusValue_first t i h1 h2 h3
  have hde : deIsAvailable t = decide (toLowerStr (statusWordAt t i) = ("free".toList)) := by
    unfold deIsAvailable; rw [hsv]
  have heu : euIsAvailable t = decide (toLowerStr (statusWordAt t i) = ("available".toList)) := by
    unfold euIsAvailable; rw [hsv]
  constructor
  · intro hne
    rw [hde]
    exact decide_eq_false hne
  · intro hne
    rw [heu]
    exact decide_eq_false hne

/-- C9 witness: texts whose first `Status:` field says `connect` are
classified unavailable by both classifiers even though a later `Status: free`
(resp. `Status: available`) field appears. -/
theorem first_status_field_wins_witness :
    deIsAvailable ("Status: connect\nStatus: free\n".toList) = false ∧
    euIsAvailable ("Status: connect\nStatus: available\n".toList) = false := by
  constructor
  · exact (first_status_field_wins ("Status: connect\nStatus: free\n".toList) 0
      (by decide) (fun j hj => absurd hj (Nat.not_lt_zero j)) (by decide)).1 (by decide)
  · exact (first_status_field_wins ("Status: connect\nStatus: available\n".toList) 0
      (by decide) (fun j hj => absurd hj (Nat.not_lt_zero j)) (by decide)).2 (by decide)

/-- C10: `readConfig` lowercases the `topLevelDomain` value before checking it
against the supported set, so an identifier whose lowercase form is supported
(e.g. `"DE"`) is accepted and the lowercase form is stored in the resulting
configuration; an absent field defaults to `"de"`. -/
theorem tld_normalization (parsed : RawConfig) (t : List Char)
    (hlen : ¬(parsed.length < MIN_LENGTH ∨ MAX_LENGTH < parsed.length))
    (hpre : (parsed.pre.getD []).all (fun c => 'a' ≤ c && c ≤ 'z') = true)
    (hsuf : (parsed.suf.getD []).all (fun c => 'a' ≤ c && c ≤ 'z') = true)
    (hinv : ¬(parsed.length ≤ ((parsed.pre.getD []).length : Int) +
      ((parsed.suf.getD []).length : Int)))
    (hint : ¬(parsed.intervalMs.getD DEFAULT_INTERVAL_MS < 0)) :
    (parsed.topLevelDomain = some t → toLowerStr t ∈ SUPPORTED_TLDS →
      readConfig parsed = Except.ok ⟨parsed.length.toNat, parsed.pre.getD [],
        parsed.suf.getD [], parsed.intervalMs.getD DEFAULT_INTERVAL_MS, toLowerStr t⟩) ∧
    (parsed.topLevelDomain = none →
      readConfig parsed = Except.ok ⟨parsed.length.toNat, parsed.pre.getD [],
        parsed.suf.getD [], parsed.intervalMs.getD DEFAULT_INTERVAL_MS, ("de".toList)⟩) := by
  have hva : validateAffix (parsed.pre.getD []) ("prefix".toList) =
      Except.ok (parsed.pre.getD []) := by
    unfold validateAffix
    rw [if_pos hpre]
  have hvs : validateAffix (parsed.suf.getD []) ("suffix".toList) =
      Except.ok (parsed.suf.getD []) := by
    unfold validateAffix
    rw [if_pos hsuf]
  constructor
  · intro hsome hmem
    simp only [readConfig, if_neg hlen, hva, hvs, if_neg hinv, if_neg hint, hsome,
      Option.getD_some, if_pos hmem]
  · intro hnone
    have hmem : toLowerStr ("de".toList) ∈ SUPPORTED_TLDS := by decide
    simp only [readConfig, if_neg hlen, hva, hvs, if_neg hinv, if_neg hint, hnone,
      Option.getD_none, if_pos hmem]
    have : toLowerStr ("de".toList) = ("de".toList) := by decide
    rw [this]

/-- C10 witness: the configuration with `topLevelDomain = "DE"` is accepted
and normalised to `"de"`. -/
theorem tld_normalization_witness :
    readConfig ⟨4, some ("gl".toList), none, none, some ("DE".toList)⟩ =
      Except.ok ⟨(4 : Int).toNat, ("gl".toList), (Option.none).getD [],
        (Option.none).getD DEFAULT_INTERVAL_MS, toLowerStr ("DE".toList)⟩ :=
  (tld_normalization ⟨4, some ("gl".toList), none, none, some ("DE".toList)⟩
    ("DE".toList) (by decide) (by decide) (by decide) (by decide) (by decide)).1
    rfl (by decide)
